import Mathlib

/-!
Verification of the data-refresh and derived-metrics pipeline of
src/app.py (Monitor Macro USA dashboard).

Modelling conventions:
* Float values are modelled exactly: finite values are rationals, and the
  special values the pipeline can produce (infinities from division by
  zero, NaN as pandas' missing-data marker) are explicit constructors of
  `FloatVal`.  Rounding is abstracted away; the arithmetic performed on
  observed values is exact.
* Observation dates are abstracted to positions: `pct_change(periods=12)`
  is positional, so a series is a list of float values and a DataFrame is
  an association list from column name to column.
* `Series.pct_change(periods=12)` is modelled without forward filling of
  missing values; the repository pins no pandas version and current pandas
  defaults to no filling.
* `st.cache_data(ttl=3600)` on line 51 is modelled as an explicit memo
  table keyed by the `start_date` argument (the `_fred` argument carries a
  leading underscore and is excluded from the cache key) together with an
  explicit clock.
-/

namespace MonitorMacro

/-- Value domain of the pipeline: finite rationals plus the special float
values the computations can produce.  `nan` doubles as pandas' marker for
a missing observation. -/
inductive FloatVal where
  | fin (q : ℚ)
  | inf
  | negInf
  | nan
deriving DecidableEq

/-- Elementwise division as numpy performs it on float data (inside the
pandas `pct_change` of line 109): division of a nonzero value by zero
yields a signed infinity, 0/0 yields NaN, NaN propagates. -/
def fdiv : FloatVal → FloatVal → FloatVal
  | FloatVal.fin a, FloatVal.fin b =>
      if b = 0 then
        (if a = 0 then FloatVal.nan else if 0 < a then FloatVal.inf else FloatVal.negInf)
      else FloatVal.fin (a / b)
  | FloatVal.fin _, FloatVal.inf => FloatVal.fin 0
  | FloatVal.fin _, FloatVal.negInf => FloatVal.fin 0
  | FloatVal.inf, FloatVal.fin b => if b < 0 then FloatVal.negInf else FloatVal.inf
  | FloatVal.negInf, FloatVal.fin b => if b < 0 then FloatVal.inf else FloatVal.negInf
  | FloatVal.nan, _ => FloatVal.nan
  | _, FloatVal.nan => FloatVal.nan
  | FloatVal.inf, FloatVal.inf => FloatVal.nan
  | FloatVal.inf, FloatVal.negInf => FloatVal.nan
  | FloatVal.negInf, FloatVal.inf => FloatVal.nan
  | FloatVal.negInf, FloatVal.negInf => FloatVal.nan

/-- Elementwise subtraction on float data (the `- 1` inside pandas
`pct_change`). -/
def fsub : FloatVal → FloatVal → FloatVal
  | FloatVal.fin a, FloatVal.fin b => FloatVal.fin (a - b)
  | FloatVal.fin _, FloatVal.inf => FloatVal.negInf
  | FloatVal.fin _, FloatVal.negInf => FloatVal.inf
  | FloatVal.inf, FloatVal.fin _ => FloatVal.inf
  | FloatVal.negInf, FloatVal.fin _ => FloatVal.negInf
  | FloatVal.inf, FloatVal.negInf => FloatVal.inf
  | FloatVal.negInf, FloatVal.inf => FloatVal.negInf
  | FloatVal.nan, _ => FloatVal.nan
  | _, FloatVal.nan => FloatVal.nan
  | FloatVal.inf, FloatVal.inf => FloatVal.nan
  | FloatVal.negInf, FloatVal.negInf => FloatVal.nan

/-- Multiplication by the positive literal 100 (line 109: `* 100`). -/
def fmul100 : FloatVal → FloatVal
  | FloatVal.fin a => FloatVal.fin (a * 100)
  | FloatVal.inf => FloatVal.inf
  | FloatVal.negInf => FloatVal.negInf
  | FloatVal.nan => FloatVal.nan

abbrev SeriesId := String

/-- A pandas Series of float observations; positions stand for the
ascending date index, `nan` marks a missing observation. -/
abbrev Series := List FloatVal

/-- Number of non-missing observations: `len(series.dropna())` of
line 108.  Note that infinities are not dropped by `dropna`. -/
def countValid (s : Series) : Nat :=
  (s.filter fun v => decide (v ≠ FloatVal.nan)).length

/-- pandas `Series.pct_change(periods=n)` of line 109, with no forward
filling: position `i` holds `value[i] / value[i-n] - 1`; the first `n`
positions, and positions with a missing operand, hold NaN. -/
def pctChange (n : Nat) (s : Series) : Series :=
  (List.range s.length).map fun i =>
    if n ≤ i then
      fsub (fdiv (s.getD i FloatVal.nan) (s.getD (i - n) FloatVal.nan)) (FloatVal.fin 1)
    else FloatVal.nan

/-- Line 109: `df[col].pct_change(periods=12) * 100`. -/
def yoyCol (s : Series) : Series := (pctChange 12 s).map fmul100

/-- Line 109 column name: the series id with the `_YoY` suffix attached. -/
def yoyKey (id : SeriesId) : String := id ++ ("_YoY")

/-- Association-list lookup, first match wins; models Python dict and
pandas column access. -/
def lookupA {α : Type} : List (String × α) → String → Option α
  | [], _ => none
  | (k, v) :: rest, key => if k = key then some v else lookupA rest key

/-- Column names of a table, in order. -/
def keys {α : Type} (t : List (String × α)) : List String := t.map fun p => p.1

/-- Keyed assignment `t[key] = v`: overwrite in place when the key exists,
otherwise append a new column at the end (pandas / dict semantics). -/
def setA {α : Type} (t : List (String × α)) (key : String) (v : α) : List (String × α) :=
  if key ∈ keys t then t.map (fun p => if p.1 = key then (key, v) else p) else t ++ [(key, v)]

/-- A fetched table: one named column per stored series. -/
abbrev SeriesTable := List (SeriesId × Series)

/-- Loop of lines 107-109: iterate over the columns of the fetched `df`,
assigning a YoY column into the accumulating `df_metrics` for every
column with more than 12 non-missing observations. -/
def deriveLoop (cols : SeriesTable) (acc : SeriesTable) : SeriesTable :=
  match cols with
  | [] => acc
  | (id, s) :: rest =>
      deriveLoop rest (if 12 < countValid s then setA acc (yoyKey id) (yoyCol s) else acc)

/-- Lines 106-109: `df_metrics = df.copy()` followed by the YoY loop. -/
def derive (df : SeriesTable) : SeriesTable := deriveLoop df df

/-- Lines 54-74: the hard-coded series catalog. -/
def seriesConfig : List (SeriesId × String) :=
  [("UNRATE", "Tasa de Desempleo"),
   ("U6RATE", "Subempleo U6"),
   ("JTSJOL", "Ofertas de Trabajo"),
   ("CPIAUCSL", "CPI Total"),
   ("CPILFESL", "CPI Core"),
   ("T10YIE", "Expectativas Inflación 10y"),
   ("INDPRO", "Producción Industrial"),
   ("RSAFS", "Ventas Minoristas"),
   ("HOUST", "Inicios Viviendas"),
   ("DGS10", "Tasa 10 años"),
   ("T10Y2Y", "Curva 10y-2y"),
   ("VIXCLS", "VIX Volatilidad")]

/-- Lines 80-88: the fetch loop.  Every catalog entry is attempted exactly
once (the returned number counts attempts); a successful fetch stores the
series under its id, a raised error is caught, warned about in the
sidebar, and the loop continues with the remaining entries. -/
def cargarLoop (fetch : SeriesId → Except String Series) :
    List (SeriesId × String) → SeriesTable × Nat
  | [] => ([], 0)
  | (id, _) :: rest =>
      match fetch id with
      | Except.ok s => ((id, s) :: (cargarLoop fetch rest).1, (cargarLoop fetch rest).2 + 1)
      | Except.error _ => ((cargarLoop fetch rest).1, (cargarLoop fetch rest).2 + 1)

/-- Lines 52-92: the body of `cargar_datos_fred` for a given fetcher (the
FRED client is abstracted as a fetch function); returns the assembled
table together with the number of fetch attempts. -/
def cargar_datos_fred (fetch : SeriesId → Except String Series) : SeriesTable × Nat :=
  cargarLoop fetch seriesConfig

/-- Memo table of `st.cache_data` (line 51): per start-date key, the store
time and the stored table. -/
abbrev Cache := List (String × (Nat × SeriesTable))

/-- Line 51: `ttl=3600` seconds. -/
def cacheTTL : Nat := 3600

/-- Lines 50-52 and 99: the cached call `cargar_datos_fred(fred,
fecha_inicio)`.  `st.cache_data(ttl=3600)` memoizes on the `start_date`
argument (`_fred` is excluded from the key by its leading underscore): a
stored entry younger than the TTL is returned with zero fetch attempts,
otherwise the body runs and its result is stored. -/
def cachedCargar (fetch : String → SeriesId → Except String Series)
    (cache : Cache) (now : Nat) (start : String) : SeriesTable × Cache × Nat :=
  match lookupA cache start with
  | some entry =>
      if now < entry.1 + cacheTTL then (entry.2, cache, 0)
      else
        ((cargarLoop (fetch start) seriesConfig).1,
         setA cache start (now, (cargarLoop (fetch start) seriesConfig).1),
         (cargarLoop (fetch start) seriesConfig).2)
  | none =>
      ((cargarLoop (fetch start) seriesConfig).1,
       setA cache start (now, (cargarLoop (fetch start) seriesConfig).1),
       (cargarLoop (fetch start) seriesConfig).2)

/-- Observable outcome of one script run. -/
inductive AppOutcome where
  | notConfigured
  | noData
  | ok (df : SeriesTable) (dfMetrics : SeriesTable)
deriving DecidableEq

/-- pandas `df.empty` (line 101): true when the table has no columns or
every column has no rows. -/
def tableIsEmpty (t : SeriesTable) : Bool := t.all fun p => p.2.isEmpty

/-- Top-level control flow of the script together with the number of
fetch attempts made: lines 28-33 (the `FRED_API_KEY in st.secrets` guard
ending in `st.stop()`), lines 95-103 (cached load and the `df.empty`
guard ending in `st.stop()`), lines 106-109 (`df_metrics`). -/
def runApp (secrets : List (String × String))
    (fetch : String → SeriesId → Except String Series)
    (cache : Cache) (now : Nat) (start : String) : AppOutcome × Nat :=
  match lookupA secrets ("FRED_API_KEY") with
  | none => (AppOutcome.notConfigured, 0)
  | some _ =>
      if tableIsEmpty (cachedCargar fetch cache now start).1 then
        (AppOutcome.noData, (cachedCargar fetch cache now start).2.2)
      else
        (AppOutcome.ok (cachedCargar fetch cache now start).1
            (derive (cachedCargar fetch cache now start).1),
         (cachedCargar fetch cache now start).2.2)

/-- Line 160: the VIX indicator label,
`"Alto Miedo" if vix > 20 else "Calma" if vix < 15 else "Neutral"`. -/
def classifyVIX (vix : ℚ) : String :=
  if vix > 20 then ("Alto Miedo") else if vix < 15 then ("Calma") else ("Neutral")

/-- Tables whose column names cannot collide with the YoY names `derive`
adds: no name equals another name (or itself) with the `_YoY` suffix
attached, and attaching the suffix keeps names distinct.  Every table the
script builds satisfies this, its columns being drawn without repetition
from `seriesConfig`. -/
def GoodTable (t : SeriesTable) : Prop :=
  (∀ p ∈ t, ∀ p' ∈ t, yoyKey p.1 ≠ p'.1) ∧ (t.map fun p => yoyKey p.1).Nodup

/-- Fixture: a fully populated 13-observation series 1, 2, …, 13. -/
def serie13 : Series :=
  [FloatVal.fin 1, FloatVal.fin 2, FloatVal.fin 3, FloatVal.fin 4, FloatVal.fin 5,
   FloatVal.fin 6, FloatVal.fin 7, FloatVal.fin 8, FloatVal.fin 9, FloatVal.fin 10,
   FloatVal.fin 11, FloatVal.fin 12, FloatVal.fin 13]

/-- Fixture: 13 observations, all equal to 0. -/
def serieZeros : Series := List.replicate 13 (FloatVal.fin 0)

/-- Fixture: value 0 followed twelve positions later by value 5, with
fully populated nonzero values in between. -/
def serieDivZero : Series :=
  [FloatVal.fin 0, FloatVal.fin 1, FloatVal.fin 2, FloatVal.fin 3, FloatVal.fin 4,
   FloatVal.fin 5, FloatVal.fin 6, FloatVal.fin 7, FloatVal.fin 8, FloatVal.fin 9,
   FloatVal.fin 10, FloatVal.fin 11, FloatVal.fin 5]

/-- Scenario fixture: 20 monthly values 1, 2, …, 20. -/
def serieA : Series :=
  [FloatVal.fin 1, FloatVal.fin 2, FloatVal.fin 3, FloatVal.fin 4, FloatVal.fin 5,
   FloatVal.fin 6, FloatVal.fin 7, FloatVal.fin 8, FloatVal.fin 9, FloatVal.fin 10,
   FloatVal.fin 11, FloatVal.fin 12, FloatVal.fin 13, FloatVal.fin 14, FloatVal.fin 15,
   FloatVal.fin 16, FloatVal.fin 17, FloatVal.fin 18, FloatVal.fin 19, FloatVal.fin 20]

/-- Scenario fixture: a catalog with series A and B. -/
def catalogAB : List (SeriesId × String) := [("A", "Serie A"), ("B", "Serie B")]

/-- Scenario fixture: a provider returning 20 values for A and raising
for B. -/
def fetchAB : SeriesId → Except String Series :=
  fun id => if id = ("A") then Except.ok serieA else Except.error ("HTTP 500")

/-- Fixture: a provider returning an empty result for B and data
otherwise. -/
def fetchEmptyB : SeriesId → Except String Series :=
  fun id => if id = ("B") then Except.ok [] else Except.ok serie13

/-- Fixture: a secrets store holding the API key. -/
def secretsW : List (String × String) := [(("FRED_API_KEY"), ("abc"))]

/-- Fixture: a provider for which every fetch raises. -/
def fetchFail : String → SeriesId → Except String Series :=
  fun _ _ => Except.error ("ConnectionError")

lemma keys_append {α : Type} (t1 t2 : List (String × α)) :
    keys (t1 ++ t2) = keys t1 ++ keys t2 := by
  simp [keys]

lemma setA_of_not_mem {α : Type} (t : List (String × α)) (k : String) (v : α)
    (h : k ∉ keys t) : setA t k v = t ++ [(k, v)] := by
  simp [setA, h]

lemma lookupA_none_iff {α : Type} (t : List (String × α)) (k : String) :
    lookupA t k = none ↔ k ∉ keys t := by
  induction t with
  | nil => simp [lookupA, keys]
  | cons p rest ih =>
      obtain ⟨k0, v0⟩ := p
      by_cases h0 : k0 = k
      · subst h0
        simp [lookupA, keys]
      · simp [lookupA, keys, h0, ih, Ne.symm h0]

lemma lookupA_append_of_none {α : Type} (t1 t2 : List (String × α)) (k : String)
    (h : lookupA t1 k = none) : lookupA (t1 ++ t2) k = lookupA t2 k := by
  induction t1 with
  | nil => simp
  | cons p rest ih =>
      obtain ⟨k0, v0⟩ := p
      by_cases h0 : k0 = k
      · simp [lookupA, h0] at h
      · simp [lookupA, h0] at h ⊢
        exact ih h

lemma lookupA_append_of_some {α : Type} (t1 t2 : List (String × α)) (k : String) (v : α)
    (h : lookupA t1 k = some v) : lookupA (t1 ++ t2) k = some v := by
  induction t1 with
  | nil => simp [lookupA] at h
  | cons p rest ih =>
      obtain ⟨k0, v0⟩ := p
      by_cases h0 : k0 = k
      · simp [lookupA, h0] at h ⊢
        exact h
      · simp [lookupA, h0] at h ⊢
        exact ih h

lemma lookupA_isSome_of_mem_keys {α : Type} (t : List (String × α)) (k : String)
    (h : k ∈ keys t) : ∃ v, lookupA t k = some v := by
  induction t with
  | nil => simp [keys] at h
  | cons p rest ih =>
      obtain ⟨k0, v0⟩ := p
      by_cases h0 : k0 = k
      · exact ⟨v0, by simp [lookupA, h0]⟩
      · have : k ∈ keys rest := by
          simp [keys] at h
          rcases h with h | h
          · exact absurd h.symm h0
          · simpa [keys] using h
        obtain ⟨v, hv⟩ := ih this
        exact ⟨v, by simp [lookupA, h0, hv]⟩

lemma lookupA_of_mem_nodup {α : Type} (t : List (String × α)) (k : String) (v : α)
    (hn : (keys t).Nodup) (h : (k, v) ∈ t) : lookupA t k = some v := by
  induction t with
  | nil => simp at h
  | cons p rest ih =>
      obtain ⟨k0, v0⟩ := p
      rcases List.mem_cons.1 h with heq | htl
      · injection heq with h1 h2
        subst h1
        subst h2
        simp [lookupA]
      · have hne : k0 ≠ k := by
          intro hkk
          subst hkk
          have : k0 ∈ keys rest := by
            simpa [keys] using List.mem_map_of_mem (fun p => p.1) htl
          exact (List.nodup_cons.1 (by simpa [keys] using hn)).1 this
        have hrest : (keys rest).Nodup := (List.nodup_cons.1 (by simpa [keys] using hn)).2
        simp [lookupA, hne, ih hrest htl]

lemma val_eq_of_mem_nodup {α : Type} (t : List (String × α)) (k : String) (a b : α)
    (hn : (keys t).Nodup) (ha : (k, a) ∈ t) (hb : (k, b) ∈ t) : a = b := by
  have h1 := lookupA_of_mem_nodup t k a hn ha
  have h2 := lookupA_of_mem_nodup t k b hn hb
  rw [h1] at h2
  exact Option.some.inj h2

lemma yoyKey_inj {a b : String} (h : yoyKey a = yoyKey b) : a = b := by
  unfold yoyKey at h
  obtain ⟨la⟩ := a
  obtain ⟨lb⟩ := b
  apply String.ext
  have hd : la ++ ("_YoY").data = lb ++ ("_YoY").data := congrArg String.data h
  exact List.append_cancel_right hd

lemma fdiv_nan_right (x : FloatVal) : fdiv x FloatVal.nan = FloatVal.nan := by
  cases x <;> rfl

lemma fdiv_nan_left (y : FloatVal) : fdiv FloatVal.nan y = FloatVal.nan := by
  cases y <;> rfl

lemma filter_congr_own {α : Type} (p p' : α → Bool) (l : List α)
    (h : ∀ a ∈ l, p a = p' a) : l.filter p = l.filter p' := by
  induction l with
  | nil => rfl
  | cons a t ih =>
      rw [List.filter_cons, List.filter_cons, h a (List.mem_cons_self a t),
        ih fun b hb => h b (List.mem_cons_of_mem a hb)]

lemma filter_map_length {α β : Type} (f : α → β) (p : β → Bool) (l : List α) :
    ((l.map f).filter p).length = (l.filter fun a => p (f a)).length := by
  induction l with
  | nil => rfl
  | cons a t ih =>
      rw [List.map_cons, List.filter_cons, List.filter_cons]
      cases h : p (f a) <;> simp [h, ih]

lemma length_filter_range_ge (m : Nat) :
    ((List.range m).filter fun i => decide (12 ≤ i)).length = m - 12 := by
  induction m with
  | zero => rfl
  | succ n ih =>
      rw [List.range_succ, List.filter_append, List.length_append, ih]
      by_cases h : 12 ≤ n
      · simp [h]
        omega
      · simp [h]
        omega

lemma yoyCol_length (s : Series) : (yoyCol s).length = s.length := by
  simp [yoyCol, pctChange]

lemma yoyCol_getD (s : Series) (i : Nat) (hi : i < s.length) :
    (yoyCol s).getD i FloatVal.nan =
      if 12 ≤ i then
        fmul100 (fsub (fdiv (s.getD i FloatVal.nan) (s.getD (i - 12) FloatVal.nan))
          (FloatVal.fin 1))
      else FloatVal.nan := by
  have h1 : i < (yoyCol s).length := by rw [yoyCol_length]; exact hi
  rw [List.getD_eq_getElem _ _ h1]
  simp only [yoyCol, pctChange, List.getElem_map, List.getElem_range]
  by_cases h12 : 12 ≤ i
  · simp [h12]
  · simp [h12, fmul100]

lemma countValid_yoyCol (s : Series)
    (hfin : ∀ v ∈ s, ∃ q, v = FloatVal.fin q)
    (hnz : ∀ i, 12 ≤ i → i < s.length →
      ¬(s.getD (i - 12) FloatVal.nan = FloatVal.fin 0 ∧
        s.getD i FloatVal.nan = FloatVal.fin 0)) :
    countValid (yoyCol s) = s.length - 12 := by
  simp only [countValid, yoyCol, pctChange, List.map_map]
  rw [filter_map_length]
  have hpt : ∀ i ∈ List.range s.length,
      (decide ((fmul100 ∘ fun i => if 12 ≤ i then
          fsub (fdiv (s.getD i FloatVal.nan) (s.getD (i - 12) FloatVal.nan)) (FloatVal.fin 1)
        else FloatVal.nan) i ≠ FloatVal.nan)) = decide (12 ≤ i) := by
    intro i hi
    simp only [List.mem_range] at hi
    simp only [Function.comp]
    by_cases h12 : 12 ≤ i
    · have hjlt : i - 12 < s.length := lt_of_le_of_lt (Nat.sub_le i 12) hi
      have hamem : s.getD i FloatVal.nan ∈ s := by
        rw [List.getD_eq_getElem _ _ hi]
        exact List.getElem_mem _
      have hbmem : s.getD (i - 12) FloatVal.nan ∈ s := by
        rw [List.getD_eq_getElem _ _ hjlt]
        exact List.getElem_mem _
      obtain ⟨a, ha⟩ := hfin _ hamem
      obtain ⟨b, hb⟩ := hfin _ hbmem
      simp only [ha, hb]
      by_cases hb0 : b = 0
      · subst hb0
        have ha0 : a ≠ 0 := by
          intro ha0
          exact hnz i h12 hi ⟨hb, by rw [ha, ha0]⟩
        rcases lt_or_gt_of_ne ha0 with hlt | hgt
        · simp [fdiv, fsub, fmul100, h12, hlt, hlt.asymm, ha0]
        · simp [fdiv, fsub, fmul100, h12, hgt, ha0]
      · simp [fdiv, fsub, fmul100, h12, hb0]
    · simp [h12, fmul100]
  rw [filter_congr_own _ _ _ hpt]
  exact length_filter_range_ge s.length

lemma deriveLoop_eq (cols : SeriesTable) :
    ∀ acc : SeriesTable,
      (cols.map fun p => yoyKey p.1).Nodup →
      (∀ p ∈ cols, yoyKey p.1 ∉ keys acc) →
      deriveLoop cols acc =
        acc ++ (cols.filter fun p => decide (12 < countValid p.2)).map
          fun p => (yoyKey p.1, yoyCol p.2) := by
  induction cols with
  | nil =>
      intro acc _ _
      simp [deriveLoop]
  | cons hd tl ih =>
      intro acc hn hacc
      obtain ⟨id, s⟩ := hd
      simp only [List.map_cons] at hn
      have hn' := List.nodup_cons.1 hn
      by_cases hq : 12 < countValid s
      · have hnot : yoyKey id ∉ keys acc := hacc (id, s) (List.mem_cons_self _ _)
        have hstep : deriveLoop ((id, s) :: tl) acc
            = deriveLoop tl (acc ++ [(yoyKey id, yoyCol s)]) := by
          simp [deriveLoop, hq, setA_of_not_mem _ _ _ hnot]
        have hacc' : ∀ p ∈ tl, yoyKey p.1 ∉ keys (acc ++ [(yoyKey id, yoyCol s)]) := by
          intro p hp hmem
          rw [keys_append] at hmem
          rcases List.mem_append.1 hmem with hm | hm
          · exact hacc p (List.mem_cons_of_mem _ hp) hm
          · have heq : yoyKey p.1 = yoyKey id := by simpa [keys] using hm
            have : yoyKey p.1 ∈ tl.map fun p => yoyKey p.1 :=
              List.mem_map_of_mem (fun p => yoyKey p.1) hp
            rw [heq] at this
            exact hn'.1 this
        rw [hstep, ih (acc ++ [(yoyKey id, yoyCol s)]) hn'.2 hacc']
        simp [List.filter_cons, hq, List.append_assoc]
      · have hstep : deriveLoop ((id, s) :: tl) acc = deriveLoop tl acc := by
          simp [deriveLoop, hq]
        rw [hstep, ih acc hn'.2 fun p hp => hacc p (List.mem_cons_of_mem _ hp)]
        simp [List.filter_cons, hq]

lemma nodup_keys_of_good (t : SeriesTable) (h : GoodTable t) : (keys t).Nodup := by
  have h2 := h.2
  have hmm : (t.map fun p => yoyKey p.1) = (keys t).map yoyKey := by
    simp [keys, List.map_map, Function.comp]
  rw [hmm] at h2
  exact h2.of_map

lemma derive_eq (t : SeriesTable) (h : GoodTable t) :
    derive t = t ++ (t.filter fun p => decide (12 < countValid p.2)).map
      fun p => (yoyKey p.1, yoyCol p.2) := by
  apply deriveLoop_eq t t h.2
  intro p hp hmem
  simp only [keys] at hmem
  obtain ⟨p', hp', hpk⟩ := List.mem_map.1 hmem
  exact h.1 p hp p' hp' hpk.symm

lemma keys_derive (t : SeriesTable) (h : GoodTable t) :
    keys (derive t) = keys t ++ (t.filter fun p => decide (12 < countValid p.2)).map
      fun p => yoyKey p.1 := by
  rw [derive_eq t h, keys_append]
  simp [keys, List.map_map, Function.comp]

lemma cargarLoop_count (fetch : SeriesId → Except String Series)
    (catalog : List (SeriesId × String)) :
    (cargarLoop fetch catalog).2 = catalog.length := by
  induction catalog with
  | nil => rfl
  | cons hd tl ih =>
      obtain ⟨id, nm⟩ := hd
      cases hfi : fetch id <;> simp [cargarLoop, hfi, ih]

lemma cargarLoop_mem_iff (fetch : SeriesId → Except String Series)
    (catalog : List (SeriesId × String)) (id : SeriesId) (s : Series) :
    (id, s) ∈ (cargarLoop fetch catalog).1 ↔
      (∃ name, (id, name) ∈ catalog) ∧ fetch id = Except.ok s := by
  induction catalog with
  | nil => simp [cargarLoop]
  | cons hd tl ih =>
      obtain ⟨i, nm⟩ := hd
      cases hfi : fetch i with
      | ok v =>
          simp only [cargarLoop, hfi]
          constructor
          · intro hmem
            rcases List.mem_cons.1 hmem with heq | htl
            · injection heq with h1 h2
              subst h1
              subst h2
              exact ⟨⟨nm, List.mem_cons_self _ _⟩, hfi⟩
            · obtain ⟨⟨nm', h1⟩, h2⟩ := ih.1 htl
              exact ⟨⟨nm', List.mem_cons_of_mem _ h1⟩, h2⟩
          · rintro ⟨⟨nm', hmemc⟩, hok⟩
            rcases List.mem_cons.1 hmemc with heq | htl2
            · injection heq with h1 h2
              subst h1
              rw [hfi] at hok
              injection hok with h3
              rw [h3]
              exact List.mem_cons_self _ _
            · exact List.mem_cons_of_mem _ (ih.2 ⟨⟨nm', htl2⟩, hok⟩)
      | error e =>
          simp only [cargarLoop, hfi]
          rw [ih]
          constructor
          · rintro ⟨⟨nm', h1⟩, h2⟩
            exact ⟨⟨nm', List.mem_cons_of_mem _ h1⟩, h2⟩
          · rintro ⟨⟨nm', h1⟩, h2⟩
            rcases List.mem_cons.1 h1 with heq | htl2
            · injection heq with h3 h4
              subst h3
              rw [hfi] at h2
              exact absurd h2 (by simp)
            · exact ⟨⟨nm', htl2⟩, h2⟩

lemma cargarLoop_all_fail (fetch : SeriesId → Except String Series)
    (catalog : List (SeriesId × String))
    (h : ∀ p ∈ catalog, ∃ e, fetch p.1 = Except.error e) :
    (cargarLoop fetch catalog).1 = [] := by
  induction catalog with
  | nil => rfl
  | cons hd tl ih =>
      obtain ⟨id, nm⟩ := hd
      obtain ⟨e, he⟩ := h (id, nm) (List.mem_cons_self _ _)
      simp [cargarLoop, he, ih fun p hp => h p (List.mem_cons_of_mem _ hp)]

lemma lookupA_yoyKey_none (t : SeriesTable) (h : GoodTable t) (id : SeriesId) (s : Series)
    (hmem : (id, s) ∈ t) : lookupA t (yoyKey id) = none := by
  apply (lookupA_none_iff t (yoyKey id)).2
  intro hm
  simp only [keys] at hm
  obtain ⟨p', hp', hpk⟩ := List.mem_map.1 hm
  exact h.1 (id, s) hmem p' hp' hpk.symm

lemma keys_yoy_map (t : SeriesTable) :
    keys ((t.filter fun p => decide (12 < countValid p.2)).map
        fun p => (yoyKey p.1, yoyCol p.2))
      = (t.filter fun p => decide (12 < countValid p.2)).map fun p => yoyKey p.1 := by
  simp [keys, List.map_map, Function.comp]

lemma yoy_mem_filter_aux (t : SeriesTable) (h : GoodTable t) (id : SeriesId) (s : Series)
    (hmem : (id, s) ∈ t)
    (hm : yoyKey id ∈ (t.filter fun p => decide (12 < countValid p.2)).map
      fun p => yoyKey p.1) :
    12 < countValid s := by
  obtain ⟨p', hp', hpk⟩ := List.mem_map.1 hm
  have hid : p'.1 = id := yoyKey_inj hpk
  have h2 : p' ∈ t := List.mem_of_mem_filter hp'
  have hpt : (id, p'.2) ∈ t := by
    rw [← hid]
    simpa using h2
  have hq' := of_decide_eq_true (List.mem_filter.1 hp').2
  have hvs : p'.2 = s := val_eq_of_mem_nodup t id p'.2 s (nodup_keys_of_good t h) hpt hmem
  rwa [hvs] at hq'

lemma lookupA_derive_yoy (t : SeriesTable) (h : GoodTable t) (id : SeriesId) (s : Series)
    (hmem : (id, s) ∈ t) (hq : 12 < countValid s) :
    lookupA (derive t) (yoyKey id) = some (yoyCol s) := by
  rw [derive_eq t h, lookupA_append_of_none _ _ _ (lookupA_yoyKey_none t h id s hmem)]
  apply lookupA_of_mem_nodup
  · rw [keys_yoy_map]
    exact List.Nodup.sublist (List.Sublist.map _ (List.filter_sublist t)) h.2
  · exact List.mem_map_of_mem _ (List.mem_filter.2 ⟨hmem, by simpa using hq⟩)

/-- Claim C1 counterexample: `serieZeros` is a fully populated series of
13 non-missing observations (so its YoY column is added), yet the YoY
column holds 0 non-missing values rather than the claimed 13 - 12 = 1:
position 12 computes 0/0, which is NaN. -/
theorem c1_counterexample :
    countValid serieZeros = 13 ∧ serieZeros.length = 13 ∧
      lookupA (derive [(("Z"), serieZeros)]) (yoyKey ("Z")) = some (yoyCol serieZeros) ∧
      countValid (yoyCol serieZeros) = 0 := by
  decide

/-- Claim C1 (amended): in the table built by lines 106-109 a series gets
a YoY column exactly when it has strictly more than 12 non-missing
observations, and a series with 12 or fewer gets none; for a fully
populated series of length n at least 13, the YoY column holds exactly
n - 12 non-missing values provided no position pairs a zero with the
zero 12 positions earlier (such a 0/0 pair yields NaN and lowers the
count; a zero denominator alone yields a signed infinity, which still
counts as present). -/
theorem c1_yoy_column_arity (t : SeriesTable) (h : GoodTable t) (id : SeriesId) (s : Series)
    (hmem : (id, s) ∈ t) :
    (yoyKey id ∈ keys (derive t) ↔ 12 < countValid s)
    ∧ (countValid s ≤ 12 → lookupA (derive t) (yoyKey id) = none)
    ∧ ((∀ v ∈ s, ∃ q, v = FloatVal.fin q) → 13 ≤ s.length →
        (∀ i, 12 ≤ i → i < s.length →
          ¬(s.getD (i - 12) FloatVal.nan = FloatVal.fin 0 ∧
            s.getD i FloatVal.nan = FloatVal.fin 0)) →
        countValid (yoyCol s) = s.length - 12) := by
  refine ⟨?_, ?_, ?_⟩
  · constructor
    · intro hmm
      rw [keys_derive t h] at hmm
      rcases List.mem_append.1 hmm with hm | hm
      · exact absurd hm ((lookupA_none_iff t _).1 (lookupA_yoyKey_none t h id s hmem))
      · exact yoy_mem_filter_aux t h id s hmem hm
    · intro hq
      rw [keys_derive t h]
      apply List.mem_append.2
      right
      exact List.mem_map_of_mem _ (List.mem_filter.2 ⟨hmem, by simpa using hq⟩)
  · intro hle
    rw [derive_eq t h, lookupA_append_of_none _ _ _ (lookupA_yoyKey_none t h id s hmem)]
    apply (lookupA_none_iff _ _).2
    intro hm
    rw [keys_yoy_map] at hm
    exact absurd (yoy_mem_filter_aux t h id s hmem hm) (by omega)
  · intro hfin hlen hnz
    exact countValid_yoyCol s hfin hnz

/-- Claim C1 witness: the concrete fully populated series 1, …, 13 gets a
YoY column with exactly one value. -/
theorem c1_yoy_column_arity_witness :
    (yoyKey ("U") ∈ keys (derive [(("U"), serie13)]) ↔ 12 < countValid serie13)
    ∧ countValid (yoyCol serie13) = 1 := by
  have hfin : ∀ v ∈ serie13, ∃ q, v = FloatVal.fin q := by
    intro v hv
    simp only [serie13, List.mem_cons, List.not_mem_nil, or_false] at hv
    rcases hv with rfl | rfl | rfl | rfl | rfl | rfl | rfl | rfl | rfl | rfl | rfl | rfl | rfl <;>
      exact ⟨_, rfl⟩
  have hnz : ∀ i, 12 ≤ i → i < serie13.length →
      ¬(serie13.getD (i - 12) FloatVal.nan = FloatVal.fin 0 ∧
        serie13.getD i FloatVal.nan = FloatVal.fin 0) := by
    intro i h12 hilt
    have hi13 : i < 13 := by simpa [serie13] using hilt
    have hieq : i = 12 := by omega
    subst hieq
    decide
  have h := c1_yoy_column_arity [(("U"), serie13)] ⟨by decide, by decide⟩ ("U") serie13
    (List.mem_cons_self _ _)
  have h3 := h.2.2 hfin (by decide) hnz
  refine ⟨h.1, ?_⟩
  rw [h3]
  rfl

/-- Claim C2: for a qualifying series the derived table holds its YoY
column under the id with the `_YoY` suffix; the column has the length of
the series, at every position i at least 12 where both operands are
present and the operand 12 back is nonzero the entry is exactly
(value[i] - value[i-12]) / value[i-12] * 100, and at every position below
12 or with a missing operand the entry is absent (NaN), aligned by
position throughout. -/
theorem c2_yoy_formula (t : SeriesTable) (h : GoodTable t) (id : SeriesId) (s : Series)
    (hmem : (id, s) ∈ t) (hq : 12 < countValid s) :
    lookupA (derive t) (yoyKey id) = some (yoyCol s)
    ∧ (yoyCol s).length = s.length
    ∧ (∀ i a b, 12 ≤ i → i < s.length →
        s.getD i FloatVal.nan = FloatVal.fin a →
        s.getD (i - 12) FloatVal.nan = FloatVal.fin b → b ≠ 0 →
        (yoyCol s).getD i FloatVal.nan = FloatVal.fin ((a - b) / b * 100))
    ∧ (∀ i, i < s.length →
        (i < 12 ∨ s.getD i FloatVal.nan = FloatVal.nan ∨
          s.getD (i - 12) FloatVal.nan = FloatVal.nan) →
        (yoyCol s).getD i FloatVal.nan = FloatVal.nan) := by
  refine ⟨lookupA_derive_yoy t h id s hmem hq, yoyCol_length s, ?_, ?_⟩
  · intro i a b h12 hi ha hb hbne
    have hval : a / b - 1 = (a - b) / b := by
      field_simp
    rw [yoyCol_getD s i hi, if_pos h12, ha, hb]
    rw [show fdiv (FloatVal.fin a) (FloatVal.fin b) = FloatVal.fin (a / b) from by
      simp [fdiv, hbne]]
    rw [show fsub (FloatVal.fin (a / b)) (FloatVal.fin 1) = FloatVal.fin (a / b - 1) from rfl]
    rw [show fmul100 (FloatVal.fin (a / b - 1)) = FloatVal.fin ((a / b - 1) * 100) from rfl]
    rw [hval]
  · intro i hi hcase
    rw [yoyCol_getD s i hi]
    rcases hcase with hlt | hna | hnb
    · rw [if_neg (by omega : ¬ 12 ≤ i)]
    · by_cases h12 : 12 ≤ i
      · rw [if_pos h12, hna, fdiv_nan_left]
        decide
      · rw [if_neg h12]
    · by_cases h12 : 12 ≤ i
      · rw [if_pos h12, hnb, fdiv_nan_right]
        decide
      · rw [if_neg h12]

/-- Claim C2 witness: for the series 1, …, 13 the YoY entry at position 12
is (13 - 1) / 1 * 100 = 1200, and the derived table exposes the column. -/
theorem c2_yoy_formula_witness :
    lookupA (derive [(("C"), serie13)]) (yoyKey ("C")) = some (yoyCol serie13)
    ∧ (yoyCol serie13).getD 12 FloatVal.nan = FloatVal.fin 1200 := by
  have h := c2_yoy_formula [(("C"), serie13)] ⟨by decide, by decide⟩ ("C") serie13
    (List.mem_cons_self _ _) (by decide)
  refine ⟨h.1, ?_⟩
  have h3 := h.2.2.1 12 13 1 (by decide) (by decide) (by decide) (by decide) (by norm_num)
  rw [h3]
  norm_num

/-- Claim C3 counterexample: a series with 0 at position 0 and 5 at
position 12 (all 13 observations present) gets a YoY column whose entry
at position 12 is positive infinity — an infinite value, not an absent
one. -/
theorem c3_counterexample :
    countValid serieDivZero = 13
    ∧ serieDivZero.getD 0 FloatVal.nan = FloatVal.fin 0
    ∧ serieDivZero.getD 12 FloatVal.nan = FloatVal.fin 5
    ∧ lookupA (derive [(("V"), serieDivZero)]) (yoyKey ("V")) = some (yoyCol serieDivZero)
    ∧ (yoyCol serieDivZero).getD 12 FloatVal.nan = FloatVal.inf := by
  decide

/-- Claim C3 (amended): at a position whose operand 12 back is 0 the YoY
entry is a signed infinity when the current value is nonzero and NaN when
it is also zero; no error is raised and the rest of the column is still
computed (the column keeps the full length of the series). -/
theorem c3_div_zero (s : Series) (i : Nat) (a : ℚ)
    (h12 : 12 ≤ i) (hi : i < s.length)
    (hb : s.getD (i - 12) FloatVal.nan = FloatVal.fin 0)
    (ha : s.getD i FloatVal.nan = FloatVal.fin a) :
    (yoyCol s).length = s.length
    ∧ (yoyCol s).getD i FloatVal.nan =
        (if a = 0 then FloatVal.nan
         else if 0 < a then FloatVal.inf else FloatVal.negInf) := by
  refine ⟨yoyCol_length s, ?_⟩
  rw [yoyCol_getD s i hi, if_pos h12, ha, hb]
  rw [show fdiv (FloatVal.fin a) (FloatVal.fin 0) =
      (if a = 0 then FloatVal.nan else if 0 < a then FloatVal.inf else FloatVal.negInf) from by
    simp [fdiv]]
  by_cases ha0 : a = 0
  · rw [if_pos ha0]
    decide
  · rw [if_neg ha0]
    by_cases hgt : 0 < a
    · rw [if_pos hgt]
      decide
    · rw [if_neg hgt]
      decide

/-- Claim C3 witness: the fixture with 0 twelve positions before 5
receives positive infinity at position 12. -/
theorem c3_div_zero_witness :
    (yoyCol serieDivZero).getD 12 FloatVal.nan = FloatVal.inf := by
  have h := c3_div_zero serieDivZero 12 5 (by decide) (by decide) (by decide) (by decide)
  rw [h.2]
  decide

/-- Claim C4: the fetch loop isolates per-series errors — an id appears
in the table exactly when it is in the catalog and its fetch succeeds,
with exactly the fetched data, and every catalog entry is attempted
(the attempt count equals the catalog length) no matter which fetches
raise; the loop is a total function, so no error propagates out of it. -/
theorem c4_fetch_error_isolated (fetch : SeriesId → Except String Series)
    (catalog : List (SeriesId × String)) (id : SeriesId) (s : Series) :
    ((id, s) ∈ (cargarLoop fetch catalog).1 ↔
      (∃ name, (id, name) ∈ catalog) ∧ fetch id = Except.ok s)
    ∧ (cargarLoop fetch catalog).2 = catalog.length :=
  ⟨cargarLoop_mem_iff fetch catalog id s, cargarLoop_count fetch catalog⟩

/-- Claim C4 witness: with catalog A, B where A yields 20 monthly values
and B raises, the loop attempts both, returns only A with its 20 rows,
`derive` on that table yields an A YoY column with 8 values, and no B
YoY key exists. -/
theorem c4_fetch_error_isolated_witness :
    ("A", serieA) ∈ (cargarLoop fetchAB catalogAB).1
    ∧ (cargarLoop fetchAB catalogAB).2 = 2
    ∧ (cargarLoop fetchAB catalogAB).1 = [(("A"), serieA)]
    ∧ serieA.length = 20
    ∧ countValid (yoyCol serieA) = 8
    ∧ lookupA (derive [(("A"), serieA)]) (yoyKey ("A")) = some (yoyCol serieA)
    ∧ lookupA (derive [(("A"), serieA)]) (yoyKey ("B")) = none := by
  refine ⟨(c4_fetch_error_isolated fetchAB catalogAB ("A") serieA).1.mpr
      ⟨⟨("Serie A"), by decide⟩, rfl⟩, by decide, by decide, by decide, by decide, ?_, by decide⟩
  exact lookupA_derive_yoy [(("A"), serieA)] ⟨by decide, by decide⟩ ("A") serieA
    (List.mem_cons_self _ _) (by decide)

/-- Claim C5: when every catalog fetch fails the loop still returns (it
is total, no exception escapes) with an empty table, and the caller's
`df.empty` guard stops the run in the distinguished no-data state after
attempting all 12 series, instead of deriving metrics from the empty
table. -/
theorem c5_total_failure (secrets : List (String × String)) (k : String)
    (fetch : String → SeriesId → Except String Series)
    (cache : Cache) (now : Nat) (start : String)
    (hkey : lookupA secrets ("FRED_API_KEY") = some k)
    (hmiss : lookupA cache start = none)
    (hfail : ∀ p ∈ seriesConfig, ∃ e, fetch start p.1 = Except.error e) :
    (cargar_datos_fred (fetch start)).1 = []
    ∧ runApp secrets fetch cache now start = (AppOutcome.noData, seriesConfig.length) := by
  have hempty : (cargarLoop (fetch start) seriesConfig).1 = [] :=
    cargarLoop_all_fail (fetch start) seriesConfig hfail
  refine ⟨hempty, ?_⟩
  simp [runApp, hkey, cachedCargar, hmiss, hempty, tableIsEmpty, cargarLoop_count]

/-- Claim C5 witness: a provider that always raises leads the run to the
no-data stop after 12 attempts. -/
theorem c5_total_failure_witness :
    runApp secretsW fetchFail [] 0 ("2010-01-01") = (AppOutcome.noData, 12) := by
  have h := c5_total_failure secretsW ("abc") fetchFail [] 0 ("2010-01-01") (by decide) rfl
    (fun p hp => ⟨("ConnectionError"), rfl⟩)
  exact h.2

/-- Claim C6: after a first (uncached) call for a start date, a second
call for the same start date within the one-hour TTL returns the stored
table with zero fetch attempts; a call after TTL expiry, or for a start
date not in the cache, runs the fetch loop again (one attempt per
catalog entry). -/
theorem c6_cache_ttl (fetch : String → SeriesId → Except String Series)
    (c0 : Cache) (t0 t1 : Nat) (s s' : String)
    (hmiss : lookupA c0 s = none) :
    (cachedCargar fetch c0 t0 s).2.2 = seriesConfig.length
    ∧ (t1 < t0 + cacheTTL →
        cachedCargar fetch (cachedCargar fetch c0 t0 s).2.1 t1 s
          = ((cachedCargar fetch c0 t0 s).1, (cachedCargar fetch c0 t0 s).2.1, 0))
    ∧ (t0 + cacheTTL ≤ t1 →
        (cachedCargar fetch (cachedCargar fetch c0 t0 s).2.1 t1 s).1
            = (cargarLoop (fetch s) seriesConfig).1
        ∧ (cachedCargar fetch (cachedCargar fetch c0 t0 s).2.1 t1 s).2.2
            = seriesConfig.length)
    ∧ (s' ≠ s → lookupA c0 s' = none →
        (cachedCargar fetch (cachedCargar fetch c0 t0 s).2.1 t1 s').1
            = (cargarLoop (fetch s') seriesConfig).1
        ∧ (cachedCargar fetch (cachedCargar fetch c0 t0 s).2.1 t1 s').2.2
            = seriesConfig.length) := by
  have hnotmem : s ∉ keys c0 := (lookupA_none_iff c0 s).1 hmiss
  have hfirst : cachedCargar fetch c0 t0 s
      = ((cargarLoop (fetch s) seriesConfig).1,
         c0 ++ [(s, (t0, (cargarLoop (fetch s) seriesConfig).1))],
         (cargarLoop (fetch s) seriesConfig).2) := by
    simp [cachedCargar, hmiss, setA_of_not_mem _ _ _ hnotmem]
  have hlook : lookupA (c0 ++ [(s, (t0, (cargarLoop (fetch s) seriesConfig).1))]) s
      = some (t0, (cargarLoop (fetch s) seriesConfig).1) := by
    rw [lookupA_append_of_none _ _ _ hmiss]
    simp [lookupA]
  refine ⟨?_, ?_, ?_, ?_⟩
  · rw [hfirst]
    exact cargarLoop_count _ _
  · intro ht
    rw [hfirst]
    simp [cachedCargar, hlook, ht]
  · intro ht
    have hnot : ¬ t1 < t0 + cacheTTL := by omega
    rw [hfirst]
    constructor <;> simp [cachedCargar, hlook, hnot, cargarLoop_count]
  · intro hne hmiss'
    have hlook' : lookupA (c0 ++ [(s, (t0, (cargarLoop (fetch s) seriesConfig).1))]) s' = none := by
      rw [lookupA_append_of_none _ _ _ hmiss']
      simp [lookupA, Ne.symm hne]
    rw [hfirst]
    constructor <;> simp [cachedCargar, hlook', cargarLoop_count]

/-- Claim C6 witness: a first call at time 0 fetches all 12 series; a
second call at time 100 for the same start date returns the stored table
with zero attempts. -/
theorem c6_cache_ttl_witness :
    (cachedCargar fetchFail [] 0 ("2010-01-01")).2.2 = 12
    ∧ cachedCargar fetchFail
        (cachedCargar fetchFail [] 0 ("2010-01-01")).2.1 100 ("2010-01-01")
      = ((cachedCargar fetchFail [] 0 ("2010-01-01")).1,
         (cachedCargar fetchFail [] 0 ("2010-01-01")).2.1, 0) := by
  have h := c6_cache_ttl fetchFail [] 0 100 ("2010-01-01") ("2015-01-01") rfl
  exact ⟨h.1, h.2.1 (by decide)⟩

/-- Claim C7 counterexample: at the thresholds themselves (VIX exactly 15
and exactly 20) line 160 yields the Neutral label, not the Good
("Calma") or Bad ("Alto Miedo") label the claim requires for boundary
values. -/
theorem c7_counterexample :
    classifyVIX 15 = ("Neutral") ∧ classifyVIX 20 = ("Neutral")
    ∧ ("Neutral" : String) ≠ ("Calma") ∧ ("Neutral" : String) ≠ ("Alto Miedo") := by
  refine ⟨?_, ?_, by decide, by decide⟩ <;> decide

/-- Claim C7 (amended): the VIX comparisons of line 160 are strict: a
value below 15 gives the Good label "Calma", a value above 20 gives the
Bad label "Alto Miedo", and every value in the closed interval from 15
to 20 — the thresholds included — gives "Neutral". -/
theorem c7_vix_classification (v : ℚ) :
    (v < 15 → classifyVIX v = ("Calma"))
    ∧ (20 < v → classifyVIX v = ("Alto Miedo"))
    ∧ (15 ≤ v → v ≤ 20 → classifyVIX v = ("Neutral")) := by
  refine ⟨?_, ?_, ?_⟩
  · intro h
    have h2 : ¬ v > 20 := by linarith
    simp [classifyVIX, h, h2]
  · intro h
    simp [classifyVIX, h]
  · intro h1 h2
    have h3 : ¬ v > 20 := by linarith
    have h4 : ¬ v < 15 := by linarith
    simp [classifyVIX, h3, h4]

/-- Claim C7 witness: 14 is Calma, 21 is Alto Miedo, 17 is Neutral. -/
theorem c7_vix_classification_witness :
    classifyVIX 14 = ("Calma") ∧ classifyVIX 21 = ("Alto Miedo")
    ∧ classifyVIX 17 = ("Neutral") :=
  ⟨(c7_vix_classification 14).1 (by norm_num),
   (c7_vix_classification 21).2.1 (by norm_num),
   (c7_vix_classification 17).2.2 (by norm_num) (by norm_num)⟩

/-- Claim C8 counterexample: with a provider that returns data for A but
an empty result for B, the loop of lines 80-88 stores B as well — the
resulting table contains a SeriesId with zero valid observations instead
of dropping it. -/
theorem c8_counterexample :
    (cargarLoop fetchEmptyB [(("A"), ("a")), (("B"), ("b"))]).1
        = [(("A"), serie13), (("B"), ([] : Series))]
    ∧ countValid ([] : Series) = 0 := by
  refine ⟨by decide, rfl⟩

/-- Claim C8 (amended): the fetch loop performs no emptiness check: a
successfully fetched series is always stored, including one with zero
observations; only series whose fetch raises are excluded, so the table
can contain a SeriesId with zero valid observations. -/
theorem c8_empty_series_retained (fetch : SeriesId → Except String Series)
    (catalog : List (SeriesId × String)) (id : SeriesId) (name : String)
    (hmem : (id, name) ∈ catalog) (hok : fetch id = Except.ok []) :
    (id, ([] : Series)) ∈ (cargarLoop fetch catalog).1
    ∧ countValid ([] : Series) = 0 :=
  ⟨(cargarLoop_mem_iff fetch catalog id []).2 ⟨⟨name, hmem⟩, hok⟩, rfl⟩

/-- Claim C8 witness: a provider returning an empty series for E leaves E
in the table with zero valid observations. -/
theorem c8_empty_series_retained_witness :
    ("E", ([] : Series)) ∈ (cargarLoop (fun _ => Except.ok ([] : Series)) [(("E"), ("e"))]).1 :=
  (c8_empty_series_retained (fun _ => Except.ok ([] : Series)) [(("E"), ("e"))] ("E") ("e")
    (List.mem_cons_self _ _) rfl).1

/-- Claim C9: when the API key is absent from the secrets store the run
ends in the distinguished not-configured state with zero fetch attempts:
the guard of lines 28-33 stops the script before any fetch, whatever the
fetcher would have returned. -/
theorem c9_missing_key (secrets : List (String × String))
    (fetch : String → SeriesId → Except String Series)
    (cache : Cache) (now : Nat) (start : String)
    (h : lookupA secrets ("FRED_API_KEY") = none) :
    runApp secrets fetch cache now start = (AppOutcome.notConfigured, 0) := by
  simp [runApp, h]

/-- Claim C9 witness: with empty secrets the run is not configured and
makes zero fetch attempts. -/
theorem c9_missing_key_witness :
    runApp [] fetchFail [] 0 ("2010-01-01") = (AppOutcome.notConfigured, 0) :=
  c9_missing_key [] fetchFail [] 0 ("2010-01-01") rfl

/-- Claim C10: `derive` works on a copy and only adds columns: looking up
any original id in the derived table returns exactly the input column,
and every key of the derived table is either an original key or the YoY
key of a qualifying input series (the input table itself is a pure
value, left unchanged by derivation). -/
theorem c10_derive_preserves (t : SeriesTable) (h : GoodTable t) :
    (∀ id, id ∈ keys t → lookupA (derive t) id = lookupA t id)
    ∧ (∀ k, k ∈ keys (derive t) →
        k ∈ keys t ∨ ∃ p, p ∈ t ∧ 12 < countValid p.2 ∧ k = yoyKey p.1) := by
  constructor
  · intro id hid
    obtain ⟨v, hv⟩ := lookupA_isSome_of_mem_keys t id hid
    rw [derive_eq t h, lookupA_append_of_some _ _ _ _ hv, hv]
  · intro k hk
    rw [keys_derive t h] at hk
    rcases List.mem_append.1 hk with hm | hm
    · exact Or.inl hm
    · obtain ⟨p, hp, hpk⟩ := List.mem_map.1 hm
      exact Or.inr ⟨p, List.mem_of_mem_filter hp,
        of_decide_eq_true (List.mem_filter.1 hp).2, hpk.symm⟩

/-- Claim C10 witness: the original column U reads the same in the
derived table as in the input table. -/
theorem c10_derive_preserves_witness :
    lookupA (derive [(("U"), serieZeros)]) ("U") = lookupA [(("U"), serieZeros)] ("U") :=
  (c10_derive_preserves [(("U"), serieZeros)] ⟨by decide, by decide⟩).1 ("U") (by decide)

end MonitorMacro
